import Mathlib

/-!
Verification of the macos-fseventsd decoder (src/fsevents.rs, src/parser.rs,
src/size.rs) against its natural-language specification.

Byte buffers are modelled as `List Nat` (each element one `u8` value).
Parsers follow nom's streaming combinators: a parse either succeeds with the
remaining input and an output, fails with `incomplete` (nom `Err::Incomplete`,
raised when the input is too short), or fails with `error`.  Machine
arithmetic on `u32` is modelled on `Nat` with an explicit `% 2^32`
(release-mode wrap-around semantics for the unguarded subtraction in
`fsevents_data`).
-/

namespace FsEv

/-- Failure modes of a nom parse: `incomplete` models `nom::Err::Incomplete`
(input ended before the combinator was satisfied), `error` the other
`nom::Err` variants. -/
inductive PErr where
  | incomplete
  | error
deriving DecidableEq, Repr

/-- Result of a nom parser: the remaining input paired with the parsed
output, or a parse failure. -/
abbrev PResult (α : Type) := Except PErr α

instance exceptDecEq {ε α : Type} [DecidableEq ε] [DecidableEq α] :
    DecidableEq (Except ε α) := fun
  | .error e, .error f =>
    match decEq e f with
    | .isTrue h => .isTrue (h ▸ rfl)
    | .isFalse h => .isFalse fun c => by cases c; exact h rfl
  | .error _, .ok _ => .isFalse fun c => by cases c
  | .ok _, .error _ => .isFalse fun c => by cases c
  | .ok a, .ok b =>
    match decEq a b with
    | .isTrue h => .isTrue (h ▸ rfl)
    | .isFalse h => .isFalse fun c => by cases c; exact h rfl

/-- Embeds `nom::bytes::streaming::take(n)`: consume exactly `n` bytes,
returning (rest, taken); signal `Incomplete` when fewer than `n` remain. -/
def takeBytes (n : Nat) (input : List Nat) : PResult (List Nat × List Nat) :=
  if n ≤ input.length then .ok (input.drop n, input.take n)
  else .error .incomplete

/-- Embeds `nom::bytes::streaming::take_while(p)`: consume the longest
prefix satisfying `p`.  In streaming mode the combinator cannot know the
prefix has ended while `p` still holds at end of input, so it signals
`Incomplete` when every byte satisfies `p`. -/
def takeWhileStream (p : Nat → Bool) (input : List Nat) :
    PResult (List Nat × List Nat) :=
  if input.all p then .error .incomplete
  else .ok (input.dropWhile p, input.takeWhile p)

/-- Little-endian value of a byte list; `leBytes` of the 4- and 8-byte
slices taken by the code embeds nom's `le_u32` / `le_u64`. -/
def leBytes (l : List Nat) : Nat :=
  l.foldr (fun b acc => b + 256 * acc) 0

/-- The `FsEventsHeader` struct of src/fsevents.rs. -/
structure FsEventsHeader where
  signature : Nat
  padding : Nat
  stream_size : Nat
deriving DecidableEq, Repr

/-- `FsEvents::DISKLOGGERV1` (signature of the older record layout). -/
def DISKLOGGERV1 : Nat := 0x444c5331

/-- `FsEvents::DISKLOGGERV2` (signature of the newer record layout). -/
def DISKLOGGERV2 : Nat := 0x444c5332

/-- `FsEvents::fsevents_header`: take three 4-byte slices and read each as a
little-endian `u32` (signature, padding, stream_size). -/
def fsevents_header (data : List Nat) : PResult (List Nat × FsEventsHeader) := do
  let (input, sig) ← takeBytes 4 data
  let (input, padding) ← takeBytes 4 input
  let (input, stream_size) ← takeBytes 4 input
  .ok (input, ⟨leBytes sig, leBytes padding, leBytes stream_size⟩)

/-- Validity of a byte list as UTF-8, following the table checked by Rust's
`str::from_utf8` (RFC 3629 well-formedness). -/
def validUtf8 : List Nat → Bool
  | [] => true
  | b :: rest =>
    if b < 0x80 then validUtf8 rest
    else if 0xC2 ≤ b && b ≤ 0xDF then
      match rest with
      | c :: r => (0x80 ≤ c && c ≤ 0xBF) && validUtf8 r
      | [] => false
    else if b == 0xE0 then
      match rest with
      | c1 :: c2 :: r =>
        (0xA0 ≤ c1 && c1 ≤ 0xBF) && (0x80 ≤ c2 && c2 ≤ 0xBF) && validUtf8 r
      | _ => false
    else if (0xE1 ≤ b && b ≤ 0xEC) || b == 0xEE || b == 0xEF then
      match rest with
      | c1 :: c2 :: r =>
        (0x80 ≤ c1 && c1 ≤ 0xBF) && (0x80 ≤ c2 && c2 ≤ 0xBF) && validUtf8 r
      | _ => false
    else if b == 0xED then
      match rest with
      | c1 :: c2 :: r =>
        (0x80 ≤ c1 && c1 ≤ 0x9F) && (0x80 ≤ c2 && c2 ≤ 0xBF) && validUtf8 r
      | _ => false
    else if b == 0xF0 then
      match rest with
      | c1 :: c2 :: c3 :: r =>
        (0x90 ≤ c1 && c1 ≤ 0xBF) && (0x80 ≤ c2 && c2 ≤ 0xBF) &&
          (0x80 ≤ c3 && c3 ≤ 0xBF) && validUtf8 r
      | _ => false
    else if 0xF1 ≤ b && b ≤ 0xF3 then
      match rest with
      | c1 :: c2 :: c3 :: r =>
        (0x80 ≤ c1 && c1 ≤ 0xBF) && (0x80 ≤ c2 && c2 ≤ 0xBF) &&
          (0x80 ≤ c3 && c3 ≤ 0xBF) && validUtf8 r
      | _ => false
    else if b == 0xF4 then
      match rest with
      | c1 :: c2 :: c3 :: r =>
        (0x80 ≤ c1 && c1 ≤ 0x8F) && (0x80 ≤ c2 && c2 ≤ 0xBF) &&
          (0x80 ≤ c3 && c3 ≤ 0xBF) && validUtf8 r
      | _ => false
    else false

/-- Embeds `from_utf8(&path.to_vec()).unwrap_or_default()`: the byte content
of the resulting Rust `String` is the raw bytes when they are valid UTF-8 and
the empty string otherwise. -/
def utf8OrEmpty (raw : List Nat) : List Nat :=
  if validUtf8 raw then raw else []

/-- `FsEvents::match_flags`: the chain of bit tests of src/fsevents.rs lines
145-229, each appending its name when the corresponding bit of the flag word
is set (the `0x0` test is part of the source and can never fire). -/
def match_flags (flags : Nat) : List String :=
  (if flags &&& 0x0 ≠ 0 then ["None"] else []) ++
  (if flags &&& 0x01 ≠ 0 then ["Created"] else []) ++
  (if flags &&& 0x02 ≠ 0 then ["Removed"] else []) ++
  (if flags &&& 0x04 ≠ 0 then ["InodeMetadataModified"] else []) ++
  (if flags &&& 0x08 ≠ 0 then ["Renamed"] else []) ++
  (if flags &&& 0x10 ≠ 0 then ["Modified"] else []) ++
  (if flags &&& 0x20 ≠ 0 then ["Exchange"] else []) ++
  (if flags &&& 0x40 ≠ 0 then ["FinderInfoModified"] else []) ++
  (if flags &&& 0x80 ≠ 0 then ["DirectoryCreated"] else []) ++
  (if flags &&& 0x100 ≠ 0 then ["PermissionChanged"] else []) ++
  (if flags &&& 0x200 ≠ 0 then ["ExtendedAttributeModified"] else []) ++
  (if flags &&& 0x400 ≠ 0 then ["ExtenedAttributeRemoved"] else []) ++
  (if flags &&& 0x800 ≠ 0 then ["DocumentCreated"] else []) ++
  (if flags &&& 0x1000 ≠ 0 then ["DocumentRevision"] else []) ++
  (if flags &&& 0x2000 ≠ 0 then ["UnmountPending"] else []) ++
  (if flags &&& 0x4000 ≠ 0 then ["ItemCloned"] else []) ++
  (if flags &&& 0x10000 ≠ 0 then ["NotificationClone"] else []) ++
  (if flags &&& 0x20000 ≠ 0 then ["ItemTruncated"] else []) ++
  (if flags &&& 0x40000 ≠ 0 then ["DirectoryEvent"] else []) ++
  (if flags &&& 0x80000 ≠ 0 then ["LastHardLinkRemoved"] else []) ++
  (if flags &&& 0x100000 ≠ 0 then ["IsHardLink"] else []) ++
  (if flags &&& 0x400000 ≠ 0 then ["IsSymbolicLink"] else []) ++
  (if flags &&& 0x800000 ≠ 0 then ["IsFile"] else []) ++
  (if flags &&& 0x1000000 ≠ 0 then ["IsDirectory"] else []) ++
  (if flags &&& 0x2000000 ≠ 0 then ["Mount"] else []) ++
  (if flags &&& 0x4000000 ≠ 0 then ["Unmount"] else []) ++
  (if flags &&& 0x20000000 ≠ 0 then ["EndOfTransaction"] else [])

/-- The `FsEvents` record struct.  The `path` field holds the UTF-8 bytes of
the Rust `String` (the stored path); `flags` is the comma-joined flag text. -/
structure FsEvents where
  flags : String
  path : List Nat
  node : Nat
  event_id : Nat
deriving DecidableEq, Repr

/-- `FsEvents::get_fsevent_data`: decode one record.  Path bytes run to the
next zero byte (streaming, so an unterminated path is `Incomplete`), the zero
byte is consumed, then an 8-byte little-endian event id and a 4-byte
little-endian flag word; the stored path is `"/"` plus the (possibly emptied)
lossy text, with one leading slash stripped when the result starts with
`"//"`; a non-`DISKLOGGERV1` signature additionally consumes an 8-byte
little-endian node id. -/
def get_fsevent_data (data : List Nat) (sig : Nat) : PResult (List Nat × FsEvents) := do
  let (input, path) ← takeWhileStream (fun b => b != 0) data
  let (input, _) ← takeBytes 1 input
  let (input, id) ← takeBytes 8 input
  let (input, flags) ← takeBytes 4 input
  let fsevent_id := leBytes id
  let fsevent_flags := leBytes flags
  let flag_list := match_flags fsevent_flags
  let path0 := 47 :: utf8OrEmpty path
  let path1 := if path0.take 2 = [47, 47] then path0.drop 1 else path0
  if sig ≠ DISKLOGGERV1 then
    let (input, node) ← takeBytes 8 input
    .ok (input, ⟨String.intercalate "," flag_list, path1, leBytes node, fsevent_id⟩)
  else
    .ok (input, ⟨String.intercalate "," flag_list, path1, 0, fsevent_id⟩)

/-- Loop body of `FsEvents::get_fsevent`, with `acc` the records pushed so
far (the Rust `fsevents_array`).  Each iteration consumes at least 13 bytes,
so fuel `data.length + 1` never runs out; fuel 0 is unreachable and reports
`Incomplete`. -/
def get_fsevent_loop : Nat → List FsEvents → List Nat → Nat →
    PResult (List Nat × List FsEvents)
  | 0, _, _, _ => .error .incomplete
  | fuel + 1, acc, input, sig => do
    let (input2, ev) ← get_fsevent_data input sig
    let acc2 := acc ++ [ev]
    if input2.length = 0 then .ok (input2, acc2)
    else get_fsevent_loop fuel acc2 input2 sig

/-- `FsEvents::get_fsevent`: decode records until the block is exhausted. -/
def get_fsevent (data : List Nat) (sig : Nat) : PResult (List Nat × List FsEvents) :=
  get_fsevent_loop (data.length + 1) [] data sig

/-- Loop body of `FsEvents::fsevents_data`, with `total` the records
accumulated so far (the Rust `total_fsevents`).  The block length
`stream_size - 12` is `u32` subtraction, embedded with wrap-around
(`% 2^32`) as compiled in release mode — the source has no underflow guard.
Each iteration consumes the 12 header bytes, so fuel `data.length + 1`
never runs out. -/
def fsevents_loop : Nat → List FsEvents → List Nat →
    PResult (List Nat × List FsEvents)
  | 0, _, _ => .error .incomplete
  | fuel + 1, total, input => do
    let (fsevents_bytes, hdr) ← fsevents_header input
    if hdr.signature ≠ DISKLOGGERV1 ∧ hdr.signature ≠ DISKLOGGERV2 then
      .ok (input, total)
    else
      let header_size := 12
      let block_len := (hdr.stream_size + 4294967296 - header_size) % 4294967296
      let (stream_input, fsevent_block) ← takeBytes block_len fsevents_bytes
      let (_, fsevents) ← get_fsevent fsevent_block hdr.signature
      let total2 := total ++ fsevents
      if stream_input.length = 0 then .ok (stream_input, total2)
      else fsevents_loop fuel total2 stream_input

/-- `FsEvents::fsevents_data`: walk the whole decompressed buffer. -/
def fsevents_data (data : List Nat) : PResult (List Nat × List FsEvents) :=
  fsevents_loop (data.length + 1) [] data

/-- A file as the batch code observes it: the size reported by filesystem
metadata (`none` when metadata cannot be read) and the outcome of
`decompress` (`none` when opening, reading or gunzipping fails). -/
structure DiskFile where
  meta : Option Nat
  contents : Option (List Nat)

/-- Outcome of `decompress` for a file: the inflated bytes, or an I/O
error. -/
def decompress (f : DiskFile) : Except Unit (List Nat) :=
  match f.contents with
  | some d => .ok d
  | none => .error ()

/-- `get_file_size` of src/size.rs: `true` when metadata is readable and the
size is strictly below the 2 GB ceiling, `false` otherwise. -/
def get_file_size (f : DiskFile) : Bool :=
  match f.meta with
  | some len => decide (len < 2147483648)
  | none => false

/-- `parse_fsevents` of src/parser.rs: alias for `FsEvents::fsevents_data`. -/
def parse_fsevents (data : List Nat) : PResult (List Nat × List FsEvents) :=
  fsevents_data data

/-- `parse_fseventsd_data` of src/parser.rs, over the discovered files: each
file is decompressed with `?` (an I/O error aborts immediately), then parsed;
a parse failure is only logged and the file skipped.  The source never
consults `get_file_size`, so `meta` is not read here. -/
def parse_fseventsd_data : List DiskFile → Except Unit (List FsEvents)
  | [] => .ok []
  | f :: rest => do
    let d ← decompress f
    match parse_fsevents d with
    | .ok (_, recs) => (parse_fseventsd_data rest).map (fun t => recs ++ t)
    | .error _ => parse_fseventsd_data rest

/-- The stored-path computation of src/fsevents.rs lines 127-131, factored
out for statements: prepend `/` to the lossy text and strip one slash when
the result starts with `//`. -/
def storedPath (raw : List Nat) : List Nat :=
  let path0 := 47 :: utf8OrEmpty raw
  if path0.take 2 = [47, 47] then path0.drop 1 else path0

/-- Modelled from the spec: the Flag Decoder's "fixed, version-independent
table of known bit positions", listed "in increasing bit-value order" with
the names used by the code.  This is the spec-side reference the chain of
conditionals in `match_flags` is compared against. -/
def knownFlagTable : List (Nat × String) :=
  [(0x01, "Created"), (0x02, "Removed"), (0x04, "InodeMetadataModified"),
   (0x08, "Renamed"), (0x10, "Modified"), (0x20, "Exchange"),
   (0x40, "FinderInfoModified"), (0x80, "DirectoryCreated"),
   (0x100, "PermissionChanged"), (0x200, "ExtendedAttributeModified"),
   (0x400, "ExtenedAttributeRemoved"), (0x800, "DocumentCreated"),
   (0x1000, "DocumentRevision"), (0x2000, "UnmountPending"),
   (0x4000, "ItemCloned"), (0x10000, "NotificationClone"),
   (0x20000, "ItemTruncated"), (0x40000, "DirectoryEvent"),
   (0x80000, "LastHardLinkRemoved"), (0x100000, "IsHardLink"),
   (0x400000, "IsSymbolicLink"), (0x800000, "IsFile"),
   (0x1000000, "IsDirectory"), (0x2000000, "Mount"),
   (0x4000000, "Unmount"), (0x20000000, "EndOfTransaction")]

/-- Modelled from the spec: the Flag Decoder emits "exactly the names of the
known set bits in increasing bit-value order" — the table filtered to the
bits set in the flag word, mapped to the names. -/
def flagNamesSpec (flags : Nat) : List String :=
  (knownFlagTable.filter (fun p => flags &&& p.1 != 0)).map Prod.snd

/-- The union of all known flag bits. -/
def knownFlagMask : Nat :=
  knownFlagTable.foldr (fun p acc => p.1 ||| acc) 0

/-- The record decoded from thirteen zero bytes under the older layout:
empty path text (stored as "/"), event id 0, no flag names, node 0. -/
def zeroRecV1 : FsEvents :=
  ⟨"", [47], 0, 0⟩

/-- A minimal well-formed DLS1 file: header (signature `DISKLOGGERV1`,
stream_size 25 = 12 + 13) followed by one thirteen-zero-byte record. -/
def dls1DemoBuf : List Nat :=
  [0x31, 0x53, 0x4c, 0x44, 0, 0, 0, 0, 25, 0, 0, 0] ++ List.replicate 13 0

/-- A buffer exercising the unguarded `stream_size - 12` subtraction: a
recognized DLS1 header with `stream_size = 3 < 12`, followed by
`(3 - 12) mod 2^32 = 4294967287 = 13 * 330382099` zero bytes, which the
wrapped block length slices exactly into 330382099 zero records. -/
def c2buf : List Nat :=
  [0x31, 0x53, 0x4c, 0x44, 0, 0, 0, 0, 3, 0, 0, 0] ++
    List.replicate 4294967287 0

theorem all_append_zero (p r : List Nat) :
    (p ++ 0 :: r).all (fun b => b != 0) = false := by
  simp [List.all_append]

theorem takeWhile_append_zero (p r : List Nat)
    (h : p.all (fun b => b != 0) = true) :
    (p ++ 0 :: r).takeWhile (fun b => b != 0) = p := by
  induction p with
  | nil => simp [List.takeWhile]
  | cons x xs ih =>
    simp only [List.all_cons, Bool.and_eq_true] at h
    simp [List.takeWhile, h.1, ih h.2]

theorem dropWhile_append_zero (p r : List Nat)
    (h : p.all (fun b => b != 0) = true) :
    (p ++ 0 :: r).dropWhile (fun b => b != 0) = 0 :: r := by
  induction p with
  | nil => simp [List.dropWhile]
  | cons x xs ih =>
    simp only [List.all_cons, Bool.and_eq_true] at h
    simp [List.dropWhile, h.1, ih h.2]

theorem takeWhileStream_append_zero (p r : List Nat)
    (h : p.all (fun b => b != 0) = true) :
    takeWhileStream (fun b => b != 0) (p ++ 0 :: r) = .ok (0 :: r, p) := by
  simp [takeWhileStream, all_append_zero, takeWhile_append_zero p r h,
    dropWhile_append_zero p r h]

theorem takeBytes_append (n : Nat) (l r : List Nat) (h : l.length = n) :
    takeBytes n (l ++ r) = .ok (r, l) := by
  subst h
  simp [takeBytes, List.take_left, List.drop_left]

theorem takeBytes_cons (x : Nat) (r : List Nat) :
    takeBytes 1 (x :: r) = .ok (r, [x]) := by
  simp [takeBytes]

theorem get_fsevent_data_v1 (p id8 fl4 tail : List Nat)
    (hp : p.all (fun b => b != 0) = true) (hid : id8.length = 8)
    (hfl : fl4.length = 4) :
    get_fsevent_data (p ++ 0 :: (id8 ++ (fl4 ++ tail))) DISKLOGGERV1 =
      .ok (tail, ⟨String.intercalate "," (match_flags (leBytes fl4)),
        storedPath p, 0, leBytes id8⟩) := by
  simp [get_fsevent_data, takeWhileStream_append_zero p _ hp, takeBytes_cons,
        takeBytes_append 8 id8 _ hid, takeBytes_append 4 fl4 _ hfl, storedPath,
        Bind.bind, Except.bind]

theorem get_fsevent_data_node (p id8 fl4 nd8 tail : List Nat) (sig : Nat)
    (hp : p.all (fun b => b != 0) = true) (hid : id8.length = 8)
    (hfl : fl4.length = 4) (hnd : nd8.length = 8) (hsig : sig ≠ DISKLOGGERV1) :
    get_fsevent_data (p ++ 0 :: (id8 ++ (fl4 ++ (nd8 ++ tail)))) sig =
      .ok (tail, ⟨String.intercalate "," (match_flags (leBytes fl4)),
        storedPath p, leBytes nd8, leBytes id8⟩) := by
  simp [get_fsevent_data, takeWhileStream_append_zero p _ hp, takeBytes_cons,
        takeBytes_append 8 id8 _ hid, takeBytes_append 4 fl4 _ hfl,
        takeBytes_append 8 nd8 _ hnd, storedPath, hsig,
        Bind.bind, Except.bind]

theorem fsevents_header_short (data : List Nat) (h : data.length < 12) :
    fsevents_header data = .error .incomplete := by
  unfold fsevents_header
  by_cases h1 : 4 ≤ data.length
  · by_cases h2 : 4 ≤ data.length - 4
    · have h3 : ¬ 4 ≤ data.length - 8 := by omega
      simp [takeBytes, h1, h2, h3, Bind.bind, Except.bind, List.length_drop]
    · simp [takeBytes, h1, h2, Bind.bind, Except.bind, List.length_drop]
  · simp [takeBytes, h1, Bind.bind, Except.bind]

/-- Claim C1, corrected.  The spec says an empty buffer yields success with
an empty record sequence; in the code the very first `fsevents_header` call
hits streaming `take(4)` on empty input and the resulting `Incomplete` error
is propagated by `?`, so the Stream Walker errors on every buffer shorter
than the 12-byte header — the empty buffer included. -/
theorem C1_short_buffer_error (data : List Nat) (h : data.length < 12) :
    fsevents_data data = .error .incomplete := by
  simp [fsevents_data, fsevents_loop, fsevents_header_short data h, Bind.bind,
    Except.bind]

/-- Claim C1 counterexample: on the empty buffer `fsevents_data` returns the
`Incomplete` parse error, not success — refuting "returns success with an
empty record sequence". -/
theorem C1_counterexample : fsevents_data [] = .error .incomplete := by decide

theorem C1_witness :
    ([] : List Nat).length < 12 ∧ fsevents_data [] = .error .incomplete :=
  ⟨by decide, C1_short_buffer_error [] (by decide)⟩

/-- Claim C5, confirmed.  Whenever the walker's current input parses to a
12-byte header whose signature is neither `DISKLOGGERV1` nor `DISKLOGGERV2`,
the loop `break`s and returns success carrying exactly the records
accumulated from the earlier blocks (`acc`) and the unconsumed input; in
particular the top-level walker returns success on such a buffer. -/
theorem C5_unrecognized_sig_stops (fuel : Nat) (acc : List FsEvents)
    (data rest : List Nat) (hdr : FsEventsHeader)
    (hh : fsevents_header data = .ok (rest, hdr))
    (h1 : hdr.signature ≠ DISKLOGGERV1) (h2 : hdr.signature ≠ DISKLOGGERV2) :
    fsevents_loop (fuel + 1) acc data = .ok (data, acc) ∧
      fsevents_data data = .ok (data, []) := by
  constructor
  · simp [fsevents_loop, hh, Bind.bind, Except.bind, h1, h2]
  · show fsevents_loop (data.length + 1) [] data = .ok (data, [])
    simp [fsevents_loop, hh, Bind.bind, Except.bind, h1, h2]

theorem C5_witness :
    fsevents_loop 1 [] (List.replicate 12 0) = .ok (List.replicate 12 0, []) ∧
      fsevents_data (List.replicate 12 0) = .ok (List.replicate 12 0, []) :=
  C5_unrecognized_sig_stops 0 [] (List.replicate 12 0) [] ⟨0, 0, 0⟩ (by decide)
    (by decide) (by decide)

theorem get_fsevent_loop_grows (fuel : Nat) :
    ∀ (acc : List FsEvents) (input : List Nat) (sig : Nat)
      (rest : List Nat) (recs : List FsEvents),
      get_fsevent_loop fuel acc input sig = .ok (rest, recs) →
        acc.length < recs.length := by
  induction fuel with
  | zero =>
    intro acc input sig rest recs h
    simp [get_fsevent_loop] at h
  | succ n ih =>
    intro acc input sig rest recs h
    simp only [get_fsevent_loop, Bind.bind, Except.bind] at h
    cases hd : get_fsevent_data input sig with
    | error e => rw [hd] at h; cases h
    | ok pr =>
      rw [hd] at h
      obtain ⟨input2, ev⟩ := pr
      by_cases hz : input2.length = 0
      · simp only [hz, if_pos, if_true, reduceIte] at h
        cases h
        simp
      · simp only [hz, if_neg, reduceIte] at h
        have := ih (acc ++ [ev]) input2 sig rest recs h
        have hle : acc.length ≤ (acc ++ [ev]).length := by simp
        omega

/-- Claim C10, confirmed.  `get_fsevent` on the empty block fails with the
`Incomplete` error (the streaming path scan finds no terminator) for every
signature; every successful `get_fsevent` yields at least one record (the
loop pushes before testing emptiness); and a whole-file buffer consisting of
a recognized header with `stream_size = 12` (empty block) is a parse error
for the file. -/
theorem C10_empty_block_error :
    (∀ sig : Nat, get_fsevent [] sig = .error .incomplete) ∧
    (∀ (data : List Nat) (sig : Nat) (rest : List Nat) (recs : List FsEvents),
      get_fsevent data sig = .ok (rest, recs) → recs ≠ []) ∧
    fsevents_data [0x31, 0x53, 0x4c, 0x44, 0, 0, 0, 0, 12, 0, 0, 0] =
      .error .incomplete := by
  refine ⟨fun sig => rfl, ?_, by decide⟩
  intro data sig rest recs h hnil
  have := get_fsevent_loop_grows (data.length + 1) [] data sig rest recs h
  rw [hnil] at this
  simp at this

theorem C10_witness :
    get_fsevent (List.replicate 13 0) DISKLOGGERV1 = .ok ([], [zeroRecV1]) ∧
      ([zeroRecV1] : List FsEvents) ≠ [] :=
  ⟨by decide, C10_empty_block_error.2.1 (List.replicate 13 0) DISKLOGGERV1 []
    [zeroRecV1] (by decide)⟩

theorem filter_map_if (f b : Nat) (s : String) (rest : List (Nat × String)) :
    ((((b, s) :: rest).filter (fun p => f &&& p.1 != 0)).map Prod.snd) =
      (if f &&& b ≠ 0 then [s] else []) ++
        ((rest.filter (fun p => f &&& p.1 != 0)).map Prod.snd) := by
  by_cases h : f &&& b = 0 <;> simp [List.filter_cons, h]

theorem match_flags_eq_spec (f : Nat) : match_flags f = flagNamesSpec f := by
  simp only [flagNamesSpec, knownFlagTable, filter_map_if, List.filter_nil,
    List.map_nil, List.append_nil, match_flags, Nat.and_zero]
  simp

theorem and_mask_known (f b : Nat) (hb : b &&& knownFlagMask = b) :
    (f &&& knownFlagMask) &&& b = f &&& b := by
  apply Nat.eq_of_testBit_eq
  intro i
  have hbi := congrArg (fun x => x.testBit i) hb
  simp only [Nat.testBit_and] at hbi ⊢
  cases hf : f.testBit i <;> cases hm : knownFlagMask.testBit i <;>
    cases hbb : b.testBit i <;> simp_all

theorem flagNamesSpec_and_mask (f : Nat) :
    flagNamesSpec (f &&& knownFlagMask) = flagNamesSpec f := by
  unfold flagNamesSpec
  congr 1
  apply List.filter_congr
  intro p hp
  have hpm : p.1 &&& knownFlagMask = p.1 := by
    fin_cases hp <;> decide
  rw [and_mask_known f p.1 hpm]

/-- Claim C7, confirmed.  For every flag word, the chain of conditionals in
`match_flags` emits exactly the names of the known set bits in the
increasing bit-value order of the table; the word `0x01 ||| 0x02 ||| 0x08 =
11` decodes to `["Created", "Removed", "Renamed"]` and joins with a comma
to `"Created,Removed,Renamed"`; and masking away bits outside the known
table leaves the output unchanged. -/
theorem C7_flag_decoder :
    (∀ f : Nat, match_flags f = flagNamesSpec f) ∧
    match_flags 11 = ["Created", "Removed", "Renamed"] ∧
    String.intercalate "," (match_flags 11) = "Created,Removed,Renamed" ∧
    (∀ f : Nat, match_flags (f &&& knownFlagMask) = match_flags f) :=
  ⟨match_flags_eq_spec, by decide, by decide, fun f => by
    rw [match_flags_eq_spec, match_flags_eq_spec, flagNamesSpec_and_mask]⟩

/-- Claim C6, confirmed.  A record decoded under `DISKLOGGERV1` consumes no
node field and has `node = 0`; with 8 extra bytes appended, `DISKLOGGERV1`
still leaves them unconsumed (middle conjunct), while any other signature —
`DISKLOGGERV2` here — consumes them as a little-endian unsigned 64-bit node
id (`leBytes`). -/
theorem C6_node_field (p id8 fl4 nd8 : List Nat)
    (hp : p.all (fun b => b != 0) = true) (hid : id8.length = 8)
    (hfl : fl4.length = 4) (hnd : nd8.length = 8) :
    get_fsevent_data (p ++ 0 :: (id8 ++ fl4)) DISKLOGGERV1 =
      .ok ([], ⟨String.intercalate "," (match_flags (leBytes fl4)),
        storedPath p, 0, leBytes id8⟩) ∧
    get_fsevent_data (p ++ 0 :: (id8 ++ fl4) ++ nd8) DISKLOGGERV1 =
      .ok (nd8, ⟨String.intercalate "," (match_flags (leBytes fl4)),
        storedPath p, 0, leBytes id8⟩) ∧
    get_fsevent_data (p ++ 0 :: (id8 ++ fl4) ++ nd8) DISKLOGGERV2 =
      .ok ([], ⟨String.intercalate "," (match_flags (leBytes fl4)),
        storedPath p, leBytes nd8, leBytes id8⟩) := by
  refine ⟨?_, ?_, ?_⟩
  · have := get_fsevent_data_v1 p id8 fl4 [] hp hid hfl
    simpa using this
  · have := get_fsevent_data_v1 p id8 fl4 nd8 hp hid hfl
    have heq : p ++ 0 :: (id8 ++ fl4) ++ nd8 =
        p ++ 0 :: (id8 ++ (fl4 ++ nd8)) := by
      simp
    rw [heq, this]
  · have := get_fsevent_data_node p id8 fl4 nd8 [] DISKLOGGERV2 hp hid hfl hnd
      (by decide)
    have heq : p ++ 0 :: (id8 ++ fl4) ++ nd8 =
        p ++ 0 :: (id8 ++ (fl4 ++ (nd8 ++ []))) := by
      simp
    rw [heq, this]

theorem C6_witness :
    ([97] : List Nat).all (fun b => b != 0) = true ∧
    get_fsevent_data
        ([97] ++ 0 :: ([1, 0, 0, 0, 0, 0, 0, 0] ++ [1, 0, 0, 0]) ++
          [2, 1, 0, 0, 0, 0, 0, 0]) DISKLOGGERV2 =
      .ok ([], ⟨"Created", [47, 97], 258, 1⟩) := by
  refine ⟨by decide, ?_⟩
  have h := (C6_node_field [97] [1, 0, 0, 0, 0, 0, 0, 0] [1, 0, 0, 0]
    [2, 1, 0, 0, 0, 0, 0, 0] (by decide) (by decide) (by decide)
    (by decide)).2.2
  rw [h]
  decide

theorem all_takeWhile_bang (l : List Nat) :
    (l.takeWhile (fun b => b != 0)).all (fun b => b != 0) = true := by
  induction l with
  | nil => simp [List.takeWhile]
  | cons x xs ih =>
    by_cases hx : (x != 0) = true
    · simp [List.takeWhile, hx, ih]
    · simp [List.takeWhile, hx]

theorem split_at_zero (data : List Nat)
    (hall : data.all (fun b => b != 0) = false) :
    ∃ t, data = data.takeWhile (fun b => b != 0) ++ 0 :: t := by
  induction data with
  | nil => simp at hall
  | cons x xs ih =>
    by_cases hx : (x != 0) = true
    · simp only [List.all_cons, hx, Bool.true_and] at hall
      obtain ⟨t, ht⟩ := ih hall
      exact ⟨t, by simp [List.takeWhile, hx]; exact ht⟩
    · have hx0 : x = 0 := by simpa using hx
      exact ⟨xs, by simp [List.takeWhile, hx, hx0]⟩

theorem storedPath_spec (raw : List Nat) :
    storedPath raw ≠ [] ∧ (storedPath raw).head? = some 47 ∧
      (raw.take 2 ≠ [47, 47] → (storedPath raw).tail.head? ≠ some 47) := by
  unfold storedPath utf8OrEmpty
  by_cases hv : validUtf8 raw
  · simp only [hv, reduceIte]
    rcases raw with _ | ⟨a, t⟩
    · simp
    · by_cases ha : a = 47
      · subst ha
        rcases t with _ | ⟨b, t2⟩
        · simp
        · by_cases hb : b = 47
          · subst hb; simp
          · simp [hb]
      · simp [ha]
  · simp [hv]

theorem get_fsevent_data_path (data : List Nat) (sig : Nat) (rest : List Nat)
    (ev : FsEvents) (h : get_fsevent_data data sig = .ok (rest, ev)) :
    ev.path = storedPath (data.takeWhile (fun b => b != 0)) := by
  by_cases hall : data.all (fun b => b != 0)
  · exfalso
    simp [get_fsevent_data, takeWhileStream, hall, Bind.bind, Except.bind] at h
  · have hallf : data.all (fun b => b != 0) = false := by simpa using hall
    obtain ⟨t, hsplit⟩ := split_at_zero data hallf
    have hraw := all_takeWhile_bang data
    rw [hsplit] at h
    simp only [get_fsevent_data, takeWhileStream_append_zero _ _ hraw,
      takeBytes_cons, Bind.bind, Except.bind] at h
    split at h
    · cases h
    · split at h
      · cases h
      · split at h
        · split at h
          · cases h
          · cases h
            simp [storedPath]
        · cases h
          simp [storedPath]

/-- Claim C3, corrected.  Every decoded record's stored path is non-empty
and begins with `/` (byte 47); it begins with exactly one `/` whenever the
record's raw path text does not itself begin with two slashes.  The original
claim ("never two or more, even when the raw text begins with one or more
`/` bytes") fails: the code collapses only one doubled slash once, so raw
text starting `//` survives as a double slash (see the counterexample). -/
theorem C3_path_leading_slash (data : List Nat) (sig : Nat) (rest : List Nat)
    (ev : FsEvents) (h : get_fsevent_data data sig = .ok (rest, ev)) :
    ev.path ≠ [] ∧ ev.path.head? = some 47 ∧
      ((data.takeWhile (fun b => b != 0)).take 2 ≠ [47, 47] →
        ev.path.tail.head? ≠ some 47) := by
  rw [get_fsevent_data_path data sig rest ev h]
  exact storedPath_spec _

/-- Claim C3 counterexample: a record whose raw path text is `//` (bytes
47, 47) decodes successfully to stored path `//` — head and second byte are
both `/`, refuting "exactly one leading slash, never two or more". -/
theorem C3_counterexample :
    get_fsevent_data [47, 47, 0, 0, 0, 0, 0, 0, 0, 0, 0, 0, 0, 0, 0]
        DISKLOGGERV1 = .ok ([], ⟨"", [47, 47], 0, 0⟩) ∧
      ([47, 47] : List Nat).head? = some 47 ∧
      ([47, 47] : List Nat).tail.head? = some 47 := by decide

theorem C3_witness :
    ([47, 65] : List Nat) ≠ [] ∧ ([47, 65] : List Nat).head? = some 47 ∧
      ((([65, 0, 0, 0, 0, 0, 0, 0, 0, 0, 0, 0, 0, 0] : List Nat).takeWhile
          (fun b => b != 0)).take 2 ≠ [47, 47] →
        ([47, 65] : List Nat).tail.head? ≠ some 47) := by
  have h : get_fsevent_data [65, 0, 0, 0, 0, 0, 0, 0, 0, 0, 0, 0, 0, 0]
      DISKLOGGERV1 = .ok ([], ⟨"", [47, 65], 0, 0⟩) := by decide
  exact C3_path_leading_slash _ _ _ _ h

/-- Claim C4, corrected.  When the path bytes are not valid UTF-8 the record
still decodes successfully — but the decoding is not lossy in the
per-sequence sense: `from_utf8(..).unwrap_or_default()` replaces the ENTIRE
raw text by the empty string, so the stored path is exactly `/` and the
valid portions are lost too (see the counterexample). -/
theorem C4_invalid_utf8_drops_all (p id8 fl4 : List Nat)
    (hp : p.all (fun b => b != 0) = true) (hid : id8.length = 8)
    (hfl : fl4.length = 4) (hbad : validUtf8 p = false) :
    get_fsevent_data (p ++ 0 :: (id8 ++ fl4)) DISKLOGGERV1 =
      .ok ([], ⟨String.intercalate "," (match_flags (leBytes fl4)), [47], 0,
        leBytes id8⟩) := by
  have h := get_fsevent_data_v1 p id8 fl4 [] hp hid hfl
  have hsp : storedPath p = [47] := by
    simp [storedPath, utf8OrEmpty, hbad]
  have heq : p ++ 0 :: (id8 ++ fl4) = p ++ 0 :: (id8 ++ (fl4 ++ [])) := by
    simp
  rw [heq, h, hsp]

/-- Claim C4 counterexample: raw path bytes `[97, 128]` ("a" followed by an
invalid byte) decode to stored path `/` — the valid portion "a" is NOT
preserved, refuting "only the invalid sequences are replaced or dropped
while the valid portions are preserved". -/
theorem C4_counterexample :
    validUtf8 [97, 128] = false ∧
    get_fsevent_data ([97, 128, 0] ++ List.replicate 12 0) DISKLOGGERV1 =
      .ok ([], ⟨"", [47], 0, 0⟩) := by decide

theorem C4_witness :
    ([128] : List Nat).all (fun b => b != 0) = true ∧
    validUtf8 [128] = false ∧
    get_fsevent_data ([128] ++ 0 :: ([0, 0, 0, 0, 0, 0, 0, 0] ++ [0, 0, 0, 0]))
        DISKLOGGERV1 = .ok ([], ⟨"", [47], 0, 0⟩) := by
  refine ⟨by decide, by decide, ?_⟩
  have h := C4_invalid_utf8_drops_all [128] [0, 0, 0, 0, 0, 0, 0, 0]
    [0, 0, 0, 0] (by decide) (by decide) (by decide) (by decide)
  rw [h]
  decide

/-- Claim C8, corrected.  In `parse_fseventsd_data` the `decompress(&file)?`
call propagates any I/O error, aborting the whole batch with that error and
discarding every other file's records (first conjunct).  Only a PARSE error
on a file's decompressed contents is logged and skipped, letting the batch
continue (second conjunct); a successfully parsed file prepends its records
to the rest of the batch (third conjunct). -/
theorem C8_io_error_aborts :
    (∀ (f : DiskFile) (rest : List DiskFile), f.contents = none →
      parse_fseventsd_data (f :: rest) = .error ()) ∧
    (∀ (f : DiskFile) (d : List Nat) (e : PErr) (rest : List DiskFile),
      f.contents = some d → parse_fsevents d = .error e →
      parse_fseventsd_data (f :: rest) = parse_fseventsd_data rest) ∧
    (∀ (f : DiskFile) (d r : List Nat) (recs : List FsEvents)
      (rest : List DiskFile),
      f.contents = some d → parse_fsevents d = .ok (r, recs) →
      parse_fseventsd_data (f :: rest) =
        (parse_fseventsd_data rest).map (fun t => recs ++ t)) := by
  refine ⟨?_, ?_, ?_⟩
  · intro f rest hc
    simp [parse_fseventsd_data, decompress, hc, Bind.bind, Except.bind]
  · intro f d e rest hc hp
    simp [parse_fseventsd_data, decompress, hc, hp, Bind.bind, Except.bind]
  · intro f d r recs rest hc hp
    simp [parse_fseventsd_data, decompress, hc, hp, Bind.bind, Except.bind]

/-- Claim C8 counterexample: a batch of one file with an I/O error followed
by one perfectly good file returns the error — it does NOT return success
with the good file's records, refuting "an I/O error causes only that file
to be skipped". -/
theorem C8_counterexample :
    parse_fseventsd_data [⟨some 5, none⟩, ⟨some 5, some dls1DemoBuf⟩] =
      .error () := by decide

theorem C8_witness :
    (⟨some 5, none⟩ : DiskFile).contents = none ∧
      parse_fseventsd_data [⟨some 5, none⟩] = .error () :=
  ⟨rfl, C8_io_error_aborts.1 ⟨some 5, none⟩ [] rfl⟩

/-- Claim C9, corrected.  The guard `get_file_size` itself passes exactly
when metadata is readable and the size is strictly below 2147483648 bytes
(first two conjuncts) — but the batch pipeline never consults it: the result
of `parse_fseventsd_data` depends only on the files' decompressed contents,
never on their metadata sizes (third conjunct), so a file at or above the
2 GiB ceiling is decompressed and decoded like any other. -/
theorem C9_guard_pass_iff :
    (∀ (s : Nat) (c : Option (List Nat)),
      get_file_size ⟨some s, c⟩ = true ↔ s < 2147483648) ∧
    (∀ c : Option (List Nat), get_file_size ⟨none, c⟩ = false) ∧
    (∀ fs gs : List DiskFile,
      fs.map DiskFile.contents = gs.map DiskFile.contents →
      parse_fseventsd_data fs = parse_fseventsd_data gs) := by
  refine ⟨?_, ?_, ?_⟩
  · intro s c; simp [get_file_size]
  · intro c; simp [get_file_size]
  · intro fs
    induction fs with
    | nil =>
      intro gs h
      cases gs with
      | nil => rfl
      | cons g gs2 => simp at h
    | cons f fs2 ih =>
      intro gs h
      cases gs with
      | nil => simp at h
      | cons g gs2 =>
        simp only [List.map_cons, List.cons.injEq] at h
        obtain ⟨h1, h2⟩ := h
        simp only [parse_fseventsd_data, decompress, h1, Bind.bind, Except.bind]
        cases hc : g.contents with
        | none => rfl
        | some d =>
          cases hp : parse_fsevents d with
          | error e => simp [hp, ih gs2 h2]
          | ok pr => simp [hp, ih gs2 h2]

/-- Claim C9 counterexample: a file whose on-disk size is exactly the 2 GiB
ceiling fails the size guard, yet the batch pipeline decodes it anyway and
returns its records — it is neither excluded from decoding nor recorded as
skipped, refuting "never decompresses or decodes that file". -/
theorem C9_counterexample :
    get_file_size ⟨some 2147483648, some dls1DemoBuf⟩ = false ∧
    parse_fseventsd_data [⟨some 2147483648, some dls1DemoBuf⟩] =
      .ok [zeroRecV1] := by decide

theorem C9_witness :
    ([⟨some 0, some []⟩] : List DiskFile).map DiskFile.contents =
        ([⟨some 2147483648, some []⟩] : List DiskFile).map DiskFile.contents ∧
      parse_fseventsd_data [⟨some 0, some []⟩] =
        parse_fseventsd_data [⟨some 2147483648, some []⟩] :=
  ⟨rfl, C9_guard_pass_iff.2.2 _ _ rfl⟩

end FsEv
